import Mathlib

/-!
Verification development for the gmso molecular-topology core.

The repository's `src/` tree contains `gmso/core/pairpotential_type.py`,
`gmso/external/convert_parmed.py` and the test-suite of the Topology
aggregate; `gmso/core/topology.py` itself (together with the Potential /
Site / Connection entities) is not part of the corpus, so those entities
are modelled from the specification (spec.md sections 3 and 4), with their
behaviour pinned down by the repository's own tests in
`src/gmso/tests/test_topology.py`.

Shared mutable `AtomType` objects (many Sites aliasing one instance, in-place
renames visible through every alias) are modelled by an arena (`atomTypeHeap`)
owned by the Topology; a Site stores an index (`ARef`) into the arena, which
plays the role of a Python object reference.
-/

set_option maxRecDepth 8192

namespace Gmso

/-- Modelled from the spec (section 3, Quantity): a tagged numeric value with a
unit.  Unit conversion internals are out of scope, so a quantity is just its
magnitude plus its unit tag. -/
structure Quantity where
  val : Int
  unit : String
deriving DecidableEq

/-- Modelled from the spec (section 3, Expression): the expression capability is
opaque; an expression value is identified by its source text. -/
abbrev Expression := String

/-- Modelled from the spec (section 3, Potential / AtomType): a concrete
parametric potential with a name, expression, parameter mapping and
independent-variable set.  The `name` field comes first so that structural
comparisons short-circuit on it. -/
structure AtomType where
  name : String
  charge : Option Quantity
  expression : Expression
  parameters : List (String × Quantity)
  independent_variables : List String
deriving DecidableEq

/-- Modelled from the spec: AtomType supplies a domain default 12-6
Lennard-Jones expression over sigma and epsilon. -/
def atomTypeDefaultExpression : Expression :=
  "4*epsilon*((sigma/r)**12 - (sigma/r)**6)"

/-- Modelled from the spec: the default AtomType as produced by a
no-argument construction. -/
def defaultAtomType : AtomType :=
  { name := "AtomType"
  , charge := some ⟨0, "elementary_charge"⟩
  , expression := atomTypeDefaultExpression
  , parameters := [("sigma", ⟨3, "angstrom"⟩), ("epsilon", ⟨1, "kJ/mol"⟩)]
  , independent_variables := ["r"] }

/-- Modelled from the spec (section 4.1): the `==` operator of Potentials
compares expression, parameters and independent variables, explicitly
EXCLUDING the name. -/
def potentialEq (a b : AtomType) : Bool :=
  a.expression == b.expression && a.parameters == b.parameters &&
    a.independent_variables == b.independent_variables

/-- Modelled from the spec (sections 4.4 and 8): the identity under which the
Topology registries de-duplicate Types.  Renaming a Type changes its
de-duplication grouping (spec, `get_index` contract), so the registry key
includes the name in addition to the value fields: this is full structural
equality of the AtomType record. -/
def registryKeyEq (a b : AtomType) : Bool := a == b

/-- Reference to an AtomType object: an index into the owning Topology's
arena.  Models a shared Python object reference. -/
abbrev ARef := Nat

/-- Modelled from the spec (section 3, Site): a point entity holding an
optional shared reference to an AtomType.  `id` models Python object
identity. -/
structure Site where
  id : Nat
  name : String
  atom_type : Option ARef
deriving DecidableEq

/-- Classification of a Connection: bonds, angles, dihedrals and impropers
are kept in separate sequences by the Topology. -/
inductive ConnKind where
  | bond
  | angle
  | dihedral
  | improper
deriving DecidableEq

/-- Modelled from the spec (section 3, Connection type entities): a
connection Type record (BondType / AngleType / DihedralType /
ImproperType share this shape). -/
structure ConnectionType where
  name : String
  expression : Expression
  parameters : List (String × Quantity)
  independent_variables : List String
deriving DecidableEq

/-- Modelled from the spec (section 3, Connection): an ordered tuple of member
Sites plus an optional shared reference (index into the Topology's
connection-type arena).  `id` models Python object identity and takes no part
in structural equality of connections. -/
structure Connection where
  id : Nat
  kind : ConnKind
  connection_members : List Site
  connection_type : Option Nat
deriving DecidableEq

/-- Default expression string of a PairPotentialType, transcribed verbatim
from `src/gmso/core/pairpotential_type.py` (the `expression` keyword default
of `PairPotentialType.__init__`). -/
def pairPotentialTypeDefaultExpression : String :=
  "4 * eps * (sigma / r)**12 - (sigma / r)**6)"

/-- PairPotentialType, following `src/gmso/core/pairpotential_type.py`: the
field defaults are the keyword defaults of `PairPotentialType.__init__`
(parameters default to eps = 1 kJ/mol and sigma = 1 nm, independent
variables default to the singleton r). -/
structure PairPotentialType where
  name : String := "PairPotentialType"
  expression : Expression := pairPotentialTypeDefaultExpression
  parameters : List (String × Quantity) := [("eps", ⟨1, "kJ/mol"⟩), ("sigma", ⟨1, "nm"⟩)]
  independent_variables : List String := ["r"]
  member_types : List AtomType := []
deriving DecidableEq

/-- Modelled from the spec (sections 1 and 6, Expression capability): parsing
a string into a symbolic expression requires the parentheses of the string to
balance; `parenDepthOk s d` scans `s` with `d` open parentheses pending. -/
def parenDepthOk : List Char → Nat → Bool
  | [], d => d == 0
  | c :: rest, d =>
    if c = '(' then parenDepthOk rest (d + 1)
    else if c = ')' then
      match d with
      | 0 => false
      | d' + 1 => parenDepthOk rest d'
    else parenDepthOk rest d

/-- A string is parseable as an expression only if its parentheses balance. -/
def parensBalanced (s : String) : Bool := parenDepthOk s.data 0

/-- Modelled from the spec (section 3, Topology): the core aggregate.  The two
arenas hold the AtomType / ConnectionType objects allocated by client code;
sites and connections store arena indices as shared references.  `atom_types`
is the derived registry of unique AtomType values in
insertion-of-first-occurrence order.  `pairpotential_types` is the explicit
pair-potential mapping keyed by an unordered AtomType pair.  `typed` is the
raw stored flag, distinct from the computed `isTyped` predicate. -/
structure Topology where
  name : String := "Topology"
  atomTypeHeap : List AtomType := []
  connTypeHeap : List ConnectionType := []
  sites : List Site := []
  bonds : List Connection := []
  angles : List Connection := []
  dihedrals : List Connection := []
  impropers : List Connection := []
  atom_types : List AtomType := []
  pairpotential_types : List ((AtomType × AtomType) × PairPotentialType) := []
  combining_rule : String := "lorentz"
  typed : Bool := false
deriving DecidableEq

/-- The empty Topology produced by a no-argument construction. -/
def emptyTopology : Topology := {}

/-- Dereference an AtomType reference in a Topology's arena. -/
def heapGet (t : Topology) (r : ARef) : Option AtomType :=
  t.atomTypeHeap.get? r

/-- Model of an in-place rename of an AtomType object: the arena cell is
updated, so the change is visible through every reference to it. -/
def renameAtomTypeAt (t : Topology) (r : ARef) (n : String) : Topology :=
  match t.atomTypeHeap.get? r with
  | some a => { t with atomTypeHeap := t.atomTypeHeap.set r { a with name := n } }
  | none => t

/-- The AtomType values reachable from the current Sites, in site order
(spec section 3, `atom_types` registry source data). -/
def siteAtomTypeValues (t : Topology) : List AtomType :=
  t.sites.filterMap (fun s => s.atom_type.bind (fun r => t.atomTypeHeap.get? r))

/-- First-occurrence de-duplication with an accumulator of already-seen
values in order. -/
def dedupFromAcc {α : Type} [BEq α] (acc : List α) : List α → List α
  | [] => acc
  | a :: l => if acc.contains a then dedupFromAcc acc l else dedupFromAcc (acc ++ [a]) l

/-- First-occurrence de-duplication of a list, preserving scan order
(spec section 4.4, `update_atom_types`). -/
def dedupFirstOcc {α : Type} [BEq α] (l : List α) : List α :=
  dedupFromAcc [] l

/-- Index of the first element satisfying `p` (0-based), `none` when there is
none; the `.index(...)` / registry position primitive. -/
def indexWhere? {α : Type} (p : α → Bool) : List α → Option Nat
  | [] => none
  | a :: l => if p a then some 0 else (indexWhere? p l).map (fun n => n + 1)

/-- Map a function over a list together with the running index, starting at
`i` (models an enumerated Python loop). -/
def mapIdxFrom {α β : Type} (f : Nat → α → β) : Nat → List α → List β
  | _, [] => []
  | i, a :: l => f i a :: mapIdxFrom f (i + 1) l

/-- Modelled from the spec (section 4.4, `update_atom_types` together with the
`get_index` contract): rescan the sites and rebuild the `atom_types` registry.
Values already registered keep their relative insertion order; values whose
first occurrence is new (for example the new value of a renamed Type object)
are appended after them in scan first-occurrence order, which is how a renamed
Type "moves to whatever position its new value falls in
insertion-of-first-occurrence order after a rescan" while other objects'
groups shift ahead of it. -/
def updateAtomTypes (t : Topology) : Topology :=
  let occ := dedupFirstOcc (siteAtomTypeValues t)
  let kept := t.atom_types.filter (fun a => occ.contains a)
  let fresh := occ.filter (fun a => !(t.atom_types.contains a))
  { t with atom_types := kept ++ fresh }

/-- Modelled from the spec (section 4.4, `add_site`): append the site to the
owned sequence; when `update_types` is true, incrementally fold its AtomType
value (if present) into the `atom_types` registry and record that the topology
has become typed. -/
def addSite (t : Topology) (s : Site) (update_types : Bool) : Topology :=
  let t1 := { t with sites := t.sites ++ [s] }
  if update_types then
    match s.atom_type.bind (fun r => t1.atomTypeHeap.get? r) with
    | some a =>
      let t2 :=
        if t1.atom_types.contains a then t1
        else { t1 with atom_types := t1.atom_types ++ [a] }
      { t2 with typed := true }
    | none => t1
  else t1

/-- Dereference a Connection's type in the Topology's connection-type arena. -/
def connTypeValue (t : Topology) (c : Connection) : Option ConnectionType :=
  c.connection_type.bind (fun r => t.connTypeHeap.get? r)

/-- Member identity of a connection: the ordered tuple of its member Sites'
object identities. -/
def memberIds (c : Connection) : List Nat :=
  c.connection_members.map (fun s => s.id)

/-- Modelled from the spec (section 4.4, failure semantics): two connections
are structurally equal when they have the same classification, the same
ordered member tuple (by Site reference identity) and equal (or both absent)
connection-type values; object identity (`id`) takes no part. -/
def connStructEq (t : Topology) (c1 c2 : Connection) : Bool :=
  c1.kind == c2.kind && memberIds c1 == memberIds c2 &&
    connTypeValue t c1 == connTypeValue t c2

/-- The owned sequence holding connections of the given classification. -/
def kindList (t : Topology) : ConnKind → List Connection
  | .bond => t.bonds
  | .angle => t.angles
  | .dihedral => t.dihedrals
  | .improper => t.impropers

/-- Replace the owned sequence of the given classification. -/
def setKindList (t : Topology) (k : ConnKind) (l : List Connection) : Topology :=
  match k with
  | .bond => { t with bonds := l }
  | .angle => { t with angles := l }
  | .dihedral => { t with dihedrals := l }
  | .improper => { t with impropers := l }

/-- Modelled from the spec (section 4.4, `add_connection`): ensure a member
Site is present in the site sequence, adding it when missing (by reference
identity). -/
def ensureMember (t : Topology) (s : Site) : Topology :=
  if t.sites.any (fun s2 => s2.id == s.id) then t
  else { t with sites := t.sites ++ [s] }

/-- Modelled from the spec (section 4.4, `add_connection` together with the
failure semantics): add any missing member Sites, then append the connection
to the sequence of its classification unless a structurally equal connection
is already stored (duplicates are coalesced); when `update_types` is true and
the connection carries a type, record that the topology has become typed. -/
def addConnection (t : Topology) (c : Connection) (update_types : Bool) : Topology :=
  let t1 := c.connection_members.foldl ensureMember t
  if (kindList t1 c.kind).any (fun c2 => connStructEq t1 c2 c) then t1
  else
    let t2 := setKindList t1 c.kind (kindList t1 c.kind ++ [c])
    if update_types && (connTypeValue t2 c).isSome then { t2 with typed := true }
    else t2

/-- Coalescing run with an accumulator of already-kept connections. -/
def dedupConnsFrom (t : Topology) (acc : List Connection) : List Connection → List Connection
  | [] => acc
  | c :: l =>
    if acc.any (fun c2 => connStructEq t c2 c) then dedupConnsFrom t acc l
    else dedupConnsFrom t (acc ++ [c]) l

/-- Coalesce structurally equal connections within one owned sequence,
keeping first occurrences (spec section 4.4, failure semantics). -/
def dedupConnections (t : Topology) (l : List Connection) : List Connection :=
  dedupConnsFrom t [] l

/-- Modelled from the spec (section 4.4, `update_topology`): full idempotent
rebuild of the derived state, coalescing structurally equal duplicate
connections and rescanning the atom-type registry. -/
def updateTopology (t : Topology) : Topology :=
  let t1 := { t with
    bonds := dedupConnections t t.bonds
    angles := dedupConnections t t.angles
    dihedrals := dedupConnections t t.dihedrals
    impropers := dedupConnections t t.impropers }
  updateAtomTypes t1

/-- All stored connections, over every classification. -/
def allConnections (t : Topology) : List Connection :=
  t.bonds ++ t.angles ++ t.dihedrals ++ t.impropers

/-- Number of stored connections (`n_connections`). -/
def nConnections (t : Topology) : Nat :=
  (allConnections t).length

/-- Modelled from the spec (sections 4.4 and 8, `is_typed()`): computed
predicate, true iff some current Site has a non-null atom_type or some
current Connection has a non-null connection type; it never reads the
stored `typed` flag. -/
def isTyped (t : Topology) : Bool :=
  t.sites.any (fun s => s.atom_type.isSome) ||
    (allConnections t).any (fun c => c.connection_type.isSome)

/-- The `typed` property setter: stores the flag directly, touching nothing
else (spec section 4.4, `typed` property). -/
def setTypedFlag (t : Topology) (b : Bool) : Topology :=
  { t with typed := b }

/-- Modelled from the spec (section 4.4, `combining_rule` property): the
setter accepts exactly "lorentz" and "geometric"; any other value raises a
domain error (first component `some` message) and leaves the topology
unchanged. -/
def setCombiningRule (t : Topology) (rule : String) : Option String × Topology :=
  if rule = "lorentz" ∨ rule = "geometric" then
    (none, { t with combining_rule := rule })
  else
    (some "Combining rule must be lorentz or geometric", t)

/-- Unordered-pair equality of two AtomType pairs, with elements compared
under the registry (frozenset-element) identity (spec section 3, invariant on
`_pairpotential_types`). -/
def atPairEq (p q : AtomType × AtomType) : Bool :=
  (registryKeyEq p.1 q.1 && registryKeyEq p.2 q.2) ||
    (registryKeyEq p.1 q.2 && registryKeyEq p.2 q.1)

/-- Modelled from the spec (section 4.4, `add_pairpotentialtype`): requires
exactly 2 member types; upserts into the pair-potential mapping keyed by the
unordered pair, replacing any existing entry for an equal pair (last write
wins, original key retained as Python dicts do) and otherwise appending.
Returns `none` when the member arity is wrong (the raised error). -/
def addPairPotentialType (t : Topology) (pp : PairPotentialType) : Option Topology :=
  match pp.member_types with
  | [a, b] =>
    if t.pairpotential_types.any (fun e => atPairEq e.1 (a, b)) then
      some { t with pairpotential_types :=
        t.pairpotential_types.map (fun e => if atPairEq e.1 (a, b) then (e.1, pp) else e) }
    else
      some { t with pairpotential_types := t.pairpotential_types ++ [((a, b), pp)] }
  | _ => none

/-- Modelled from the spec (section 4.4, `remove_pairpotentialtype`): delete
the entry for the unordered pair if present; no error when absent. -/
def removePairPotentialType (t : Topology) (pair : AtomType × AtomType) : Topology :=
  { t with pairpotential_types :=
      t.pairpotential_types.filter (fun e => !(atPairEq e.1 pair)) }

/-- Lookup in the pair-potential mapping by unordered pair. -/
def getPairPotentialType (t : Topology) (pair : AtomType × AtomType) : Option PairPotentialType :=
  (t.pairpotential_types.find? (fun e => atPairEq e.1 pair)).map (fun e => e.2)

/-- Modelled from the spec (section 4.4, `get_index` on a Site): position in
the owning site sequence, by reference identity, first match; `none` models
the ValueError when absent. -/
def getIndexSite (t : Topology) (s : Site) : Option Nat :=
  indexWhere? (fun s2 => s2.id == s.id) t.sites

/-- Modelled from the spec (section 4.4, `get_index` on a Connection):
position within the sequence of connections of its own classification, by
reference identity, first match. -/
def getIndexConn (t : Topology) (c : Connection) : Option Nat :=
  indexWhere? (fun c2 => c2.id == c.id) (kindList t c.kind)

/-- Modelled from the spec (section 4.4, `get_index` on a Type): the registry
is rescanned, then the position of the value-equality class of the object's
current value within the registry's iteration order is returned. -/
def getIndexAtomType (t : Topology) (r : ARef) : Option Nat :=
  let t' := updateAtomTypes t
  match heapGet t' r with
  | some a => indexWhere? (fun b => registryKeyEq b a) t'.atom_types
  | none => none

/-- Name of the AtomType observed through site `i`'s reference, dereferencing
the shared arena (models `top.sites[i].atom_type.name`). -/
def siteAtomTypeName (t : Topology) (i : Nat) : Option String :=
  (t.sites.get? i).bind (fun s => s.atom_type.bind (fun r => (heapGet t r).map (fun a => a.name)))

/-! Model of `src/gmso/external/convert_parmed.py::from_parmed`.  The ParmEd
side is abstracted to the fields the adapter reads; `atom_type : Option _`
records whether `atom.atom_type` is a `pmd.AtomType` instance (`none` models
any non-AtomType value there).  The adapter itself is transcribed as a trace
of Topology operations (site/connection additions with their `update_types`
flags and the `update_topology()` calls, in program order) interpreted over
the Topology model. -/

/-- A ParmEd AtomType as read by the adapter (name, charge, sigma, epsilon). -/
structure PmdAtomType where
  name : String
  charge : Int
  sigma : Int
  epsilon : Int
deriving DecidableEq

/-- A ParmEd atom as read by the adapter. -/
structure PmdAtom where
  name : String
  charge : Int
  atom_type : Option PmdAtomType
deriving DecidableEq

/-- A ParmEd bond type (k, req). -/
structure PmdBondType where
  k : Int
  req : Int
deriving DecidableEq

/-- A ParmEd angle type (k, theteq). -/
structure PmdAngleType where
  k : Int
  theteq : Int
deriving DecidableEq

/-- A ParmEd periodic dihedral type (phi_k, phase, per). -/
structure PmdDihedralType where
  phi_k : Int
  phase : Int
  per : Int
deriving DecidableEq

/-- A ParmEd Ryckaert-Bellemans torsion type (c0..c5). -/
structure PmdRBTorsionType where
  c0 : Int
  c1 : Int
  c2 : Int
  c3 : Int
  c4 : Int
  c5 : Int
deriving DecidableEq

/-- A ParmEd bond: two atom indices plus the index of its type object within
`structure.bond_types` (ParmEd keeps `bond.type` as an element of that
list). -/
structure PmdBond where
  atom1 : Nat
  atom2 : Nat
  btype : Nat
deriving DecidableEq

/-- A ParmEd angle: three atom indices plus its type's index. -/
structure PmdAngle where
  atom1 : Nat
  atom2 : Nat
  atom3 : Nat
  atype : Nat
deriving DecidableEq

/-- A ParmEd periodic dihedral: four atom indices, the improper flag and its
type's index. -/
structure PmdDihedral where
  atom1 : Nat
  atom2 : Nat
  atom3 : Nat
  atom4 : Nat
  improper : Bool
  dtype : Nat
deriving DecidableEq

/-- A ParmEd RB torsion: four atom indices, the improper flag and its type's
index. -/
structure PmdRBTorsion where
  atom1 : Nat
  atom2 : Nat
  atom3 : Nat
  atom4 : Nat
  improper : Bool
  rbtype : Nat
deriving DecidableEq

/-- The slice of a `parmed.Structure` read by `from_parmed`. -/
structure PmdStructure where
  title : String
  atoms : List PmdAtom
  bond_types : List PmdBondType
  angle_types : List PmdAngleType
  dihedral_types : List PmdDihedralType
  rb_torsion_types : List PmdRBTorsionType
  bonds : List PmdBond
  angles : List PmdAngle
  dihedrals : List PmdDihedral
  rb_torsions : List PmdRBTorsion
  box : Option (List Int)
deriving DecidableEq

/-- The parametrization check of `from_parmed` (convert_parmed.py lines
31-33): inspects only `structure.atoms[0]`; `none` when there is no first
atom (the real code raises an IndexError there). -/
def isParametrized (s : PmdStructure) : Option Bool :=
  s.atoms.head?.map (fun a => a.atom_type.isSome)

/-- The unique ParmEd atom types of the structure
(`list(set([a.atom_type for a in structure.atoms]))`, restricted to actual
AtomType instances; the Python set order is unspecified, modelled as
first-occurrence order). -/
def uniquePmdAtomTypes (s : PmdStructure) : List PmdAtomType :=
  dedupFirstOcc (s.atoms.filterMap (fun a => a.atom_type))

/-- Conversion of one ParmEd atom type to a gmso AtomType (convert_parmed.py
lines 40-47); unit conversion is opaque, the magnitudes carry their target
unit tags. -/
def convertPmdAtomType (pt : PmdAtomType) : AtomType :=
  { name := pt.name
  , charge := some ⟨pt.charge, "elementary_charge"⟩
  , expression := atomTypeDefaultExpression
  , parameters := [("sigma", ⟨pt.sigma, "nm"⟩), ("epsilon", ⟨pt.epsilon, "kcal/mol"⟩)]
  , independent_variables := ["r"] }

/-- Conversion of one ParmEd bond type (convert_parmed.py lines 50-58); the
gmso BondType default expression is modelled from the spec (section 4.2,
domain default). -/
def convertPmdBondType (bt : PmdBondType) : ConnectionType :=
  { name := "BondType"
  , expression := "0.5 * k * (r - r_eq)**2"
  , parameters := [("k", ⟨2 * bt.k, "kcal/(nm**2*mol)"⟩), ("r_eq", ⟨bt.req, "nm"⟩)]
  , independent_variables := ["r"] }

/-- Conversion of one ParmEd angle type (convert_parmed.py lines 61-69). -/
def convertPmdAngleType (at2 : PmdAngleType) : ConnectionType :=
  { name := "AngleType"
  , expression := "0.5 * k * (theta - theta_eq)**2"
  , parameters := [("k", ⟨2 * at2.k, "kcal/(rad**2*mol)"⟩), ("theta_eq", ⟨at2.theteq, "degree"⟩)]
  , independent_variables := ["theta"] }

/-- Conversion of one ParmEd periodic dihedral type (convert_parmed.py lines
72-81). -/
def convertPmdDihedralType (dt : PmdDihedralType) : ConnectionType :=
  { name := "DihedralType"
  , expression := "k * (1 + cos(n * phi - phi_eq))"
  , parameters := [("k", ⟨dt.phi_k, "kcal/mol"⟩), ("phi_eq", ⟨dt.phase, "degree"⟩), ("n", ⟨dt.per, "dimensionless"⟩)]
  , independent_variables := ["phi"] }

/-- Conversion of one ParmEd RB torsion type (convert_parmed.py lines
82-98), with the explicit cosine-series expression passed in the source. -/
def convertPmdRBTorsionType (rt : PmdRBTorsionType) : ConnectionType :=
  { name := "DihedralType"
  , expression := "c0 * cos(phi)**0 + c1 * cos(phi)**1 + c2 * cos(phi)**2 + c3 * cos(phi)**3 + c4 * cos(phi)**4 + c5 * cos(phi)**5"
  , parameters := [("c0", ⟨rt.c0, "kcal/mol"⟩), ("c1", ⟨rt.c1, "kcal/mol"⟩), ("c2", ⟨rt.c2, "kcal/mol"⟩),
                   ("c3", ⟨rt.c3, "kcal/mol"⟩), ("c4", ⟨rt.c4, "kcal/mol"⟩), ("c5", ⟨rt.c5, "kcal/mol"⟩)]
  , independent_variables := ["phi"] }

/-- The connection-type arena allocated by the adapter: converted bond types,
then angle types, then periodic dihedral types, then RB torsion types. -/
def connTypeHeapOf (s : PmdStructure) : List ConnectionType :=
  s.bond_types.map convertPmdBondType ++ s.angle_types.map convertPmdAngleType ++
    s.dihedral_types.map convertPmdDihedralType ++ s.rb_torsion_types.map convertPmdRBTorsionType

/-- The sites built by the atom loop (convert_parmed.py lines 100-116): one
site per atom in order; in the parametrized branch the site references the
shared converted AtomType of its atom (`pmd_top_atomtypes[atom.atom_type]`),
otherwise `atom_type=None`. -/
def sitesOf (s : PmdStructure) : List Site :=
  let isParam := (isParametrized s).getD false
  mapIdxFrom (fun i a =>
    { id := i
    , name := a.name
    , atom_type :=
        if isParam then
          a.atom_type.bind (fun pt => indexWhere? (fun q => q == pt) (uniquePmdAtomTypes s))
        else none }) 0 s.atoms

/-- The Bond connections built by the bond loop (convert_parmed.py lines
125-140). -/
def bondConns (s : PmdStructure) : List Connection :=
  let isParam := (isParametrized s).getD false
  let sts := sitesOf s
  mapIdxFrom (fun i b =>
    { id := i
    , kind := .bond
    , connection_members := [b.atom1, b.atom2].filterMap (fun j => sts.get? j)
    , connection_type := if isParam then some b.btype else none }) 0 s.bonds

/-- The Angle connections built by the angle loop (convert_parmed.py lines
143-157); type references are offset past the bond types in the arena. -/
def angleConns (s : PmdStructure) : List Connection :=
  let isParam := (isParametrized s).getD false
  let sts := sitesOf s
  mapIdxFrom (fun i a =>
    { id := i
    , kind := .angle
    , connection_members := [a.atom1, a.atom2, a.atom3].filterMap (fun j => sts.get? j)
    , connection_type := if isParam then some (s.bond_types.length + a.atype) else none }) 0 s.angles

/-- The Dihedral connections built by the periodic-dihedral loop
(convert_parmed.py lines 160-185). -/
def dihedralConns (s : PmdStructure) : List Connection :=
  let isParam := (isParametrized s).getD false
  let sts := sitesOf s
  mapIdxFrom (fun i d =>
    { id := i
    , kind := .dihedral
    , connection_members := [d.atom1, d.atom2, d.atom3, d.atom4].filterMap (fun j => sts.get? j)
    , connection_type :=
        if isParam then some (s.bond_types.length + s.angle_types.length + d.dtype) else none }) 0 s.dihedrals

/-- The Dihedral connections built by the RB-torsion loop (convert_parmed.py
lines 187-210); they are classified as dihedrals too. -/
def rbTorsionConns (s : PmdStructure) : List Connection :=
  let isParam := (isParametrized s).getD false
  let sts := sitesOf s
  mapIdxFrom (fun i d =>
    { id := s.dihedrals.length + i
    , kind := .dihedral
    , connection_members := [d.atom1, d.atom2, d.atom3, d.atom4].filterMap (fun j => sts.get? j)
    , connection_type :=
        if isParam then
          some (s.bond_types.length + s.angle_types.length + s.dihedral_types.length + d.rbtype)
        else none }) 0 s.rb_torsions

/-- The truthiness of `np.all(structure.box)` (convert_parmed.py line 119). -/
def boxAll (s : PmdStructure) : Bool :=
  match s.box with
  | some l => l.all (fun x => !(x == 0))
  | none => false

/-- One Topology operation performed by the adapter, in program order. -/
inductive TopOp where
  | addSiteOp (s : Site) (update_types : Bool)
  | addConnectionOp (c : Connection) (update_types : Bool)
  | updateTopologyOp
  | setBoxOp
deriving DecidableEq

/-- The trace of Topology operations performed by `from_parmed`
(convert_parmed.py lines 100-212): `add_site` per atom (default
`update_types=True`), `update_topology()`, the box assignment, then
`add_connection(..., update_types=False)` per bond followed by
`update_topology()`, per angle followed by `update_topology()`, and per
periodic dihedral and RB torsion followed by the final
`update_topology()`. -/
def fromParmedTrace (s : PmdStructure) : List TopOp :=
  (sitesOf s).map (fun st => TopOp.addSiteOp st true)
    ++ [TopOp.updateTopologyOp]
    ++ (if boxAll s then [TopOp.setBoxOp] else [])
    ++ (bondConns s).map (fun c => TopOp.addConnectionOp c false)
    ++ [TopOp.updateTopologyOp]
    ++ (angleConns s).map (fun c => TopOp.addConnectionOp c false)
    ++ [TopOp.updateTopologyOp]
    ++ (dihedralConns s).map (fun c => TopOp.addConnectionOp c false)
    ++ (rbTorsionConns s).map (fun c => TopOp.addConnectionOp c false)
    ++ [TopOp.updateTopologyOp]

/-- Interpretation of one adapter operation over the Topology model (the box
is outside the modelled state, so its assignment does not change it). -/
def execOp (t : Topology) : TopOp → Topology
  | .addSiteOp s u => addSite t s u
  | .addConnectionOp c u => addConnection t c u
  | .updateTopologyOp => updateTopology t
  | .setBoxOp => t

/-- The Topology the adapter starts from: `gmso.Topology(name=structure.title)`
plus the arenas holding every AtomType / connection-type object the adapter
allocates before and during the loops. -/
def initialConvertTopology (s : PmdStructure) : Topology :=
  { emptyTopology with
    name := s.title
    atomTypeHeap := (uniquePmdAtomTypes s).map convertPmdAtomType
    connTypeHeap := connTypeHeapOf s }

/-- The full adapter: errors on an empty atom list
(`structure.atoms[0]` raises) and when the first atom is typed but a later
atom's `atom_type` is not an AtomType (the consolidation dict build raises);
otherwise runs the operation trace. -/
def fromParmed (s : PmdStructure) : Except String Topology :=
  match s.atoms.head? with
  | none => Except.error "IndexError: structure.atoms is empty"
  | some a0 =>
    if a0.atom_type.isSome && s.atoms.any (fun a => a.atom_type.isNone) then
      Except.error "AttributeError: a non-AtomType atom_type in a parametrized structure"
    else
      Except.ok ((fromParmedTrace s).foldl execOp (initialConvertTopology s))

/-! Theorems. -/

/-- The PairPotentialType produced by a no-argument construction: every
keyword default of `PairPotentialType.__init__` in effect. -/
def defaultPairPotentialType : PairPotentialType := {}

/-- C5: a PairPotentialType constructed without explicit expression,
parameters or independent variables carries the default parameters
eps = 1 kJ/mol and sigma = 1 nm and independent variable r as claimed, but
its default expression string (transcribed verbatim from the source) has an
unmatched closing parenthesis, so it is NOT a well-formed expression: the
expression capability cannot parse it and construction fails.  This
contradicts the claim (and the source's own intent of a 12-6
Lennard-Jones form). -/
theorem pairpotentialtype_default_expression_unparseable :
    defaultPairPotentialType.parameters = [("eps", ⟨1, "kJ/mol"⟩), ("sigma", ⟨1, "nm"⟩)]
    ∧ defaultPairPotentialType.independent_variables = ["r"]
    ∧ defaultPairPotentialType.expression = pairPotentialTypeDefaultExpression
    ∧ parensBalanced defaultPairPotentialType.expression = false := by
  decide

/-- C6: on an empty Topology, assigning `typed = True` makes the stored flag
read true while the computed `is_typed()` still returns false; in general the
setter never changes the computed predicate. -/
theorem typed_flag_diverges_from_is_typed :
    ((setTypedFlag emptyTopology true).typed = true
      ∧ isTyped (setTypedFlag emptyTopology true) = false
      ∧ emptyTopology.typed = false
      ∧ isTyped emptyTopology = false)
    ∧ ∀ (t : Topology) (b : Bool), isTyped (setTypedFlag t b) = isTyped t := by
  exact ⟨by decide, fun t b => rfl⟩

/-- C8: the combining-rule setter rejects any value other than "lorentz" and
"geometric", raising and leaving the whole topology unchanged; both
recognized enumerants are accepted and stored. -/
theorem combining_rule_setter_validation (t : Topology) (v : String)
    (h : v ≠ "lorentz" ∧ v ≠ "geometric") :
    (setCombiningRule t v).1.isSome = true
    ∧ (setCombiningRule t v).2 = t
    ∧ (setCombiningRule t "lorentz").1 = none
    ∧ (setCombiningRule t "lorentz").2.combining_rule = "lorentz"
    ∧ (setCombiningRule t "geometric").1 = none
    ∧ (setCombiningRule t "geometric").2.combining_rule = "geometric" := by
  have hv : ¬(v = "lorentz" ∨ v = "geometric") := fun hor => hor.elim h.1 h.2
  refine ⟨?_, ?_, ?_, ?_, ?_, ?_⟩ <;> simp [setCombiningRule, hv]

/-- Witness for C8 at the test's rejected value "kong" on the empty
topology. -/
theorem combining_rule_setter_validation_witness :
    ("kong" ≠ "lorentz" ∧ "kong" ≠ "geometric")
    ∧ ((setCombiningRule emptyTopology "kong").1.isSome = true
      ∧ (setCombiningRule emptyTopology "kong").2 = emptyTopology
      ∧ (setCombiningRule emptyTopology "lorentz").1 = none
      ∧ (setCombiningRule emptyTopology "lorentz").2.combining_rule = "lorentz"
      ∧ (setCombiningRule emptyTopology "geometric").1 = none
      ∧ (setCombiningRule emptyTopology "geometric").2.combining_rule = "geometric") :=
  ⟨by decide, combining_rule_setter_validation emptyTopology "kong" (by decide)⟩

/-- The unordered-pair key equality is reflexive. -/
theorem atPairEq_refl (p : AtomType × AtomType) : atPairEq p p = true := by
  simp [atPairEq, registryKeyEq]

/-- C2: adding two PairPotentialTypes whose member pairs collide under the
frozenset key (value equality of the AtomTypes, even for reference-distinct
objects) to a topology with an empty pair-potential registry leaves exactly
one entry holding the second value; removing that unordered pair empties the
registry. -/
theorem add_pairpotentialtype_last_write_wins
    (t : Topology) (pp1 pp2 : PairPotentialType) (a1 b1 a2 b2 : AtomType)
    (hempty : t.pairpotential_types = [])
    (hm1 : pp1.member_types = [a1, b1])
    (hm2 : pp2.member_types = [a2, b2])
    (hpair : atPairEq (a1, b1) (a2, b2) = true) :
    ∃ t1 t2 : Topology,
      addPairPotentialType t pp1 = some t1
      ∧ addPairPotentialType t1 pp2 = some t2
      ∧ t2.pairpotential_types.length = 1
      ∧ getPairPotentialType t2 (a1, b1) = some pp2
      ∧ (removePairPotentialType t2 (a1, b1)).pairpotential_types.length = 0 := by
  refine ⟨{ t with pairpotential_types := [((a1, b1), pp1)] },
          { t with pairpotential_types := [((a1, b1), pp2)] }, ?_, ?_, rfl, ?_, ?_⟩
  · simp [addPairPotentialType, hm1, hempty]
  · simp [addPairPotentialType, hm2, hpair]
  · simp [getPairPotentialType, atPairEq_refl]
  · simp [removePairPotentialType, atPairEq_refl]

/-- The first AtomType of the pair-potential test (custom expression over the
default record). -/
def c2AtomType1 : AtomType := { defaultAtomType with expression := "sigma + epsilon*r" }

/-- A reference-distinct but structurally equal copy of the first AtomType. -/
def c2SameAtomType1 : AtomType := { defaultAtomType with expression := "sigma + epsilon*r" }

/-- The second, value-distinct AtomType of the pair-potential test. -/
def c2AtomType2 : AtomType := { defaultAtomType with expression := "sigma * epsilon*r" }

/-- The first added PairPotentialType of the test (expression r + 1). -/
def c2PPType12 : PairPotentialType :=
  { name := "pp12", expression := "r + 1", parameters := [],
    independent_variables := ["r"], member_types := [c2AtomType1, c2AtomType2] }

/-- The second added PairPotentialType of the test (expression r + 2, keyed
through the structurally equal AtomType copy). -/
def c2SamePPType12 : PairPotentialType :=
  { name := "pp12", expression := "r + 2", parameters := [],
    independent_variables := ["r"], member_types := [c2SameAtomType1, c2AtomType2] }

/-- Witness for C2 at the concrete data of `test_pairpotentialtype`. -/
theorem add_pairpotentialtype_last_write_wins_witness :
    (emptyTopology.pairpotential_types = []
      ∧ c2PPType12.member_types = [c2AtomType1, c2AtomType2]
      ∧ c2SamePPType12.member_types = [c2SameAtomType1, c2AtomType2]
      ∧ atPairEq (c2AtomType1, c2AtomType2) (c2SameAtomType1, c2AtomType2) = true)
    ∧ ∃ t1 t2 : Topology,
        addPairPotentialType emptyTopology c2PPType12 = some t1
        ∧ addPairPotentialType t1 c2SamePPType12 = some t2
        ∧ t2.pairpotential_types.length = 1
        ∧ getPairPotentialType t2 (c2AtomType1, c2AtomType2) = some c2SamePPType12
        ∧ (removePairPotentialType t2 (c2AtomType1, c2AtomType2)).pairpotential_types.length = 0 :=
  ⟨⟨by decide, by decide, by decide, by decide⟩,
    add_pairpotentialtype_last_write_wins emptyTopology c2PPType12 c2SamePPType12
      c2AtomType1 c2AtomType2 c2SameAtomType1 c2AtomType2
      (by decide) (by decide) (by decide) (by decide)⟩

/-! Preservation helpers for the connection bookkeeping. -/

/-- Adding a missing member Site never changes the bonds. -/
theorem ensureMember_bonds (t : Topology) (s : Site) : (ensureMember t s).bonds = t.bonds := by
  unfold ensureMember; split <;> rfl

/-- Adding a missing member Site never changes the angles. -/
theorem ensureMember_angles (t : Topology) (s : Site) : (ensureMember t s).angles = t.angles := by
  unfold ensureMember; split <;> rfl

/-- Adding a missing member Site never changes the dihedrals. -/
theorem ensureMember_dihedrals (t : Topology) (s : Site) : (ensureMember t s).dihedrals = t.dihedrals := by
  unfold ensureMember; split <;> rfl

/-- Adding a missing member Site never changes the impropers. -/
theorem ensureMember_impropers (t : Topology) (s : Site) : (ensureMember t s).impropers = t.impropers := by
  unfold ensureMember; split <;> rfl

/-- Adding a missing member Site never changes the connection-type arena. -/
theorem ensureMember_connTypeHeap (t : Topology) (s : Site) :
    (ensureMember t s).connTypeHeap = t.connTypeHeap := by
  unfold ensureMember; split <;> rfl

/-- Folding member additions never changes the connection-type arena. -/
theorem foldl_ensureMember_connTypeHeap :
    ∀ (l : List Site) (t : Topology), (l.foldl ensureMember t).connTypeHeap = t.connTypeHeap
  | [], _ => rfl
  | s :: l, t => by
    rw [List.foldl_cons, foldl_ensureMember_connTypeHeap l, ensureMember_connTypeHeap]

/-- Folding member additions never changes any connection sequence. -/
theorem foldl_ensureMember_kindList :
    ∀ (l : List Site) (t : Topology) (k : ConnKind),
      kindList (l.foldl ensureMember t) k = kindList t k
  | [], _, _ => rfl
  | s :: l, t, k => by
    rw [List.foldl_cons, foldl_ensureMember_kindList l]
    cases k <;>
      simp [kindList, ensureMember_bonds, ensureMember_angles, ensureMember_dihedrals,
        ensureMember_impropers]

/-- Structural equality of connections only reads the connection-type arena
of the topology. -/
theorem connStructEq_congr (t t2 : Topology) (h : t2.connTypeHeap = t.connTypeHeap)
    (c1 c2 : Connection) : connStructEq t2 c1 c2 = connStructEq t c1 c2 := by
  simp [connStructEq, connTypeValue, h]

/-- Replacing one classification's sequence leaves the arena alone. -/
theorem setKindList_connTypeHeap (t : Topology) (k : ConnKind) (l : List Connection) :
    (setKindList t k l).connTypeHeap = t.connTypeHeap := by
  cases k <;> rfl

/-- Reading back the replaced classification gives the new sequence. -/
theorem kindList_setKindList_same (t : Topology) (k : ConnKind) (l : List Connection) :
    kindList (setKindList t k l) k = l := by
  cases k <;> rfl

/-- Replacing one classification leaves the other classifications alone. -/
theorem kindList_setKindList_other (t : Topology) (k k2 : ConnKind) (l : List Connection)
    (h : k2 ≠ k) : kindList (setKindList t k l) k2 = kindList t k2 := by
  cases k <;> cases k2 <;> first | exact absurd rfl h | rfl

/-- Setting the stored typed flag leaves every connection sequence alone. -/
theorem kindList_set_typed (t : Topology) (b : Bool) (k : ConnKind) :
    kindList { t with typed := b } k = kindList t k := by
  cases k <;> rfl

/-- The connection-type arena survives `addConnection`. -/
theorem addConnection_connTypeHeap (t : Topology) (c : Connection) (u : Bool) :
    (addConnection t c u).connTypeHeap = t.connTypeHeap := by
  simp only [addConnection]
  split
  · exact foldl_ensureMember_connTypeHeap _ _
  · split <;> simp [setKindList_connTypeHeap, foldl_ensureMember_connTypeHeap]

/-- A connection with no structurally equal duplicate present is appended at
the end of its classification's sequence. -/
theorem addConnection_kindList_fresh (t : Topology) (c : Connection) (u : Bool)
    (hany : (kindList t c.kind).any (fun c2 => connStructEq t c2 c) = false) :
    kindList (addConnection t c u) c.kind = kindList t c.kind ++ [c] := by
  have hheap : (c.connection_members.foldl ensureMember t).connTypeHeap = t.connTypeHeap :=
    foldl_ensureMember_connTypeHeap _ _
  have hkl : ∀ k, kindList (c.connection_members.foldl ensureMember t) k = kindList t k :=
    fun k => foldl_ensureMember_kindList _ _ _
  have hcong : ∀ x y, connStructEq (c.connection_members.foldl ensureMember t) x y
      = connStructEq t x y := connStructEq_congr _ _ hheap
  simp only [addConnection, hkl, hcong, hany]
  simp only [Bool.false_eq_true, if_false]
  split <;> simp [kindList_set_typed, kindList_setKindList_same, hkl]

/-- A connection with no structurally equal duplicate present leaves the
other classifications' sequences alone. -/
theorem addConnection_kindList_other (t : Topology) (c : Connection) (u : Bool)
    (k : ConnKind) (hk : k ≠ c.kind) :
    kindList (addConnection t c u) k = kindList t k := by
  have hheap : (c.connection_members.foldl ensureMember t).connTypeHeap = t.connTypeHeap :=
    foldl_ensureMember_connTypeHeap _ _
  have hkl : ∀ k, kindList (c.connection_members.foldl ensureMember t) k = kindList t k :=
    fun k => foldl_ensureMember_kindList _ _ _
  have hcong : ∀ x y, connStructEq (c.connection_members.foldl ensureMember t) x y
      = connStructEq t x y := connStructEq_congr _ _ hheap
  simp only [addConnection, hkl, hcong]
  split
  · exact hkl k
  · split <;> simp [kindList_set_typed, kindList_setKindList_other _ _ _ _ hk, hkl]

/-- A connection that does have a structurally equal duplicate present
changes no classification's sequence. -/
theorem addConnection_kindList_dup (t : Topology) (c : Connection) (u : Bool)
    (hany : (kindList t c.kind).any (fun c2 => connStructEq t c2 c) = true) :
    ∀ k, kindList (addConnection t c u) k = kindList t k := by
  intro k
  have hheap : (c.connection_members.foldl ensureMember t).connTypeHeap = t.connTypeHeap :=
    foldl_ensureMember_connTypeHeap _ _
  have hkl : ∀ k, kindList (c.connection_members.foldl ensureMember t) k = kindList t k :=
    fun k => foldl_ensureMember_kindList _ _ _
  have hcong : ∀ x y, connStructEq (c.connection_members.foldl ensureMember t) x y
      = connStructEq t x y := connStructEq_congr _ _ hheap
  simp only [addConnection, hkl, hcong, hany]
  simp only [if_true, hkl]

/-- Summing the four classification sequences after a full update. -/
theorem nConnections_updateTopology (t : Topology) :
    nConnections (updateTopology t) =
      (dedupConnections t t.bonds).length + (dedupConnections t t.angles).length
        + (dedupConnections t t.dihedrals).length + (dedupConnections t t.impropers).length := by
  simp [nConnections, allConnections, updateTopology, updateAtomTypes, List.length_append]
  omega

/-- C7: adding two reference-distinct Bonds with the identical ordered member
tuple and equal (or both absent) connection types to a topology with no
stored connections, then calling `update_topology()`, leaves exactly one
stored connection: the structurally equal duplicate is coalesced. -/
theorem duplicate_connection_coalesced (t : Topology) (c1 c2 : Connection)
    (hempty : t.bonds = [] ∧ t.angles = [] ∧ t.dihedrals = [] ∧ t.impropers = [])
    (hk1 : c1.kind = ConnKind.bond) (hk2 : c2.kind = ConnKind.bond)
    (_hid : c1.id ≠ c2.id)
    (hmem : memberIds c1 = memberIds c2)
    (hct : connTypeValue t c1 = connTypeValue t c2) :
    nConnections (updateTopology (addConnection (addConnection t c1 true) c2 true)) = 1 := by
  obtain ⟨hb, han, hd, hi⟩ := hempty
  have hbk : kindList t c1.kind = [] := by rw [hk1]; exact hb
  have hany1 : (kindList t c1.kind).any (fun x => connStructEq t x c1) = false := by
    rw [hbk]; rfl
  have hA : kindList (addConnection t c1 true) c1.kind = [c1] := by
    rw [addConnection_kindList_fresh t c1 true hany1, hbk]; rfl
  have hAbond : kindList (addConnection t c1 true) ConnKind.bond = [c1] := by
    rw [← hk1]; exact hA
  have hheapA : (addConnection t c1 true).connTypeHeap = t.connTypeHeap :=
    addConnection_connTypeHeap t c1 true
  have heq12 : connStructEq (addConnection t c1 true) c1 c2 = true := by
    rw [connStructEq_congr _ _ hheapA]
    simp [connStructEq, hk1, hk2, hmem, hct]
  have hany2 : (kindList (addConnection t c1 true) c2.kind).any
      (fun x => connStructEq (addConnection t c1 true) x c2) = true := by
    rw [hk2, hAbond]
    simp [heq12]
  have hdup := addConnection_kindList_dup (addConnection t c1 true) c2 true hany2
  have hother : ∀ k, k ≠ c1.kind → kindList (addConnection t c1 true) k = kindList t k :=
    fun k hk => addConnection_kindList_other t c1 true k hk
  have hBb : (addConnection (addConnection t c1 true) c2 true).bonds = [c1] :=
    (hdup ConnKind.bond).trans hAbond
  have hBa : (addConnection (addConnection t c1 true) c2 true).angles = [] := by
    refine ((hdup ConnKind.angle).trans (hother ConnKind.angle ?_)).trans han
    rw [hk1]; intro hcontra; cases hcontra
  have hBd : (addConnection (addConnection t c1 true) c2 true).dihedrals = [] := by
    refine ((hdup ConnKind.dihedral).trans (hother ConnKind.dihedral ?_)).trans hd
    rw [hk1]; intro hcontra; cases hcontra
  have hBi : (addConnection (addConnection t c1 true) c2 true).impropers = [] := by
    refine ((hdup ConnKind.improper).trans (hother ConnKind.improper ?_)).trans hi
    rw [hk1]; intro hcontra; cases hcontra
  rw [nConnections_updateTopology, hBb, hBa, hBd, hBi]
  rfl

/-- First site of the duplicate-bond test. -/
def c7AtomA : Site := { id := 0, name := "AtomA", atom_type := none }

/-- Second site of the duplicate-bond test. -/
def c7AtomB : Site := { id := 1, name := "AtomB", atom_type := none }

/-- First Bond of the duplicate-bond test. -/
def c7Bond : Connection :=
  { id := 0, kind := ConnKind.bond, connection_members := [c7AtomA, c7AtomB],
    connection_type := none }

/-- Reference-distinct duplicate Bond with the identical member tuple. -/
def c7BondEq : Connection :=
  { id := 1, kind := ConnKind.bond, connection_members := [c7AtomA, c7AtomB],
    connection_type := none }

/-- Witness for C7 at the concrete data of
`test_add_duplicate_connected_atom`. -/
theorem duplicate_connection_coalesced_witness :
    ((emptyTopology.bonds = [] ∧ emptyTopology.angles = [] ∧ emptyTopology.dihedrals = []
        ∧ emptyTopology.impropers = [])
      ∧ c7Bond.kind = ConnKind.bond ∧ c7BondEq.kind = ConnKind.bond
      ∧ c7Bond.id ≠ c7BondEq.id
      ∧ memberIds c7Bond = memberIds c7BondEq
      ∧ connTypeValue emptyTopology c7Bond = connTypeValue emptyTopology c7BondEq)
    ∧ nConnections
        (updateTopology (addConnection (addConnection emptyTopology c7Bond true) c7BondEq true))
        = 1 :=
  ⟨⟨by decide, by decide, by decide, by decide, by decide, by decide⟩,
    duplicate_connection_coalesced emptyTopology c7Bond c7BondEq
      ⟨by decide, by decide, by decide, by decide⟩
      (by decide) (by decide) (by decide) (by decide) (by decide)⟩

/-- The first index at which `p` holds over `l ++ [x]` is `l.length` when `p`
fails throughout `l` and holds at `x`. -/
theorem indexWhere?_append_of_forall_false {α : Type} (p : α → Bool) (x : α) :
    ∀ (l : List α), (∀ y ∈ l, p y = false) → p x = true →
      indexWhere? p (l ++ [x]) = some l.length
  | [], _, hx => by simp [indexWhere?, hx]
  | a :: l, hl, hx => by
    have ha : p a = false := hl a (List.mem_cons_self a l)
    have ih := indexWhere?_append_of_forall_false p x l
      (fun y hy => hl y (List.mem_cons_of_mem a hy)) hx
    simp [indexWhere?, ha, ih]

/-- C9: `get_index` on a newly added Connection returns its 0-indexed
position within the sequence of connections of its own classification: when
no stored connection of that classification is structurally equal to it or
shares its reference identity, adding it yields index `N`, the previous count
of that classification. -/
theorem get_index_new_connection (t : Topology) (c : Connection) (u : Bool)
    (hfresh : ∀ c2 ∈ kindList t c.kind, connStructEq t c2 c = false ∧ c2.id ≠ c.id) :
    getIndexConn (addConnection t c u) c = some (kindList t c.kind).length := by
  have hany : (kindList t c.kind).any (fun c2 => connStructEq t c2 c) = false := by
    rw [List.any_eq_false]
    intro x hx
    simp [(hfresh x hx).1]
  have hlist := addConnection_kindList_fresh t c u hany
  unfold getIndexConn
  rw [hlist]
  apply indexWhere?_append_of_forall_false
  · intro y hy
    have := (hfresh y hy).2
    simp [this]
  · simp

/-- The member atoms of the get_index test (ten untyped sites). -/
def c9Atom (i : Nat) : Site := { id := i, name := "Atom", atom_type := none }

/-- Ten sites added to a fresh topology. -/
def c9Base : Topology :=
  (List.range 10).foldl (fun t i => addSite t (c9Atom i) true) emptyTopology

/-- Bond number `i` of the get_index test (members i, i+1). -/
def c9Bond (i : Nat) : Connection :=
  { id := i, kind := ConnKind.bond
  , connection_members := [c9Atom i, c9Atom (i + 1)], connection_type := none }

/-- Angle number `i` of the get_index test. -/
def c9Angle (i : Nat) : Connection :=
  { id := i, kind := ConnKind.angle
  , connection_members := [c9Atom i, c9Atom (i + 1), c9Atom (i + 2)], connection_type := none }

/-- Dihedral number `i` of the get_index test. -/
def c9Dihedral (i : Nat) : Connection :=
  { id := i, kind := ConnKind.dihedral
  , connection_members := [c9Atom i, c9Atom (i + 1), c9Atom (i + 2), c9Atom (i + 3)]
  , connection_type := none }

/-- Improper number `i` of the get_index test. -/
def c9Improper (i : Nat) : Connection :=
  { id := i, kind := ConnKind.improper
  , connection_members := [c9Atom i, c9Atom (i + 1), c9Atom (i + 2), c9Atom (i + 3)]
  , connection_type := none }

/-- The topology of `test_topology_get_index` after five connections of each
classification. -/
def c9Top : Topology :=
  (List.range 5).foldl (fun t i =>
    addConnection
      (addConnection (addConnection (addConnection t (c9Bond i) true) (c9Angle i) true)
        (c9Dihedral i) true)
      (c9Improper i) true) c9Base

/-- The newly added bond (members 6, 7). -/
def c9NewBond : Connection :=
  { id := 5, kind := ConnKind.bond
  , connection_members := [c9Atom 6, c9Atom 7], connection_type := none }

/-- The newly added angle (members 6, 7, 8). -/
def c9NewAngle : Connection :=
  { id := 5, kind := ConnKind.angle
  , connection_members := [c9Atom 6, c9Atom 7, c9Atom 8], connection_type := none }

/-- The newly added dihedral (members 6, 7, 8, 9). -/
def c9NewDihedral : Connection :=
  { id := 5, kind := ConnKind.dihedral
  , connection_members := [c9Atom 6, c9Atom 7, c9Atom 8, c9Atom 9], connection_type := none }

/-- The newly added improper (members 6, 7, 8, 9). -/
def c9NewImproper : Connection :=
  { id := 5, kind := ConnKind.improper
  , connection_members := [c9Atom 6, c9Atom 7, c9Atom 8, c9Atom 9], connection_type := none }

/-- The topology after the new bond is added. -/
def c9T1 : Topology := addConnection c9Top c9NewBond true

/-- The topology after the new angle is also added. -/
def c9T2 : Topology := addConnection c9T1 c9NewAngle true

/-- The topology after the new dihedral is also added. -/
def c9T3 : Topology := addConnection c9T2 c9NewDihedral true

/-- Witness for C9 at the concrete data of `test_topology_get_index`: five
connections of each classification, then one more of each; every new one gets
index 5 within its own classification's sequence. -/
theorem get_index_new_connection_witness :
    ((∀ c2 ∈ kindList c9Top c9NewBond.kind,
        connStructEq c9Top c2 c9NewBond = false ∧ c2.id ≠ c9NewBond.id)
      ∧ getIndexConn (addConnection c9Top c9NewBond true) c9NewBond
          = some (kindList c9Top c9NewBond.kind).length)
    ∧ ((∀ c2 ∈ kindList c9T1 c9NewAngle.kind,
        connStructEq c9T1 c2 c9NewAngle = false ∧ c2.id ≠ c9NewAngle.id)
      ∧ getIndexConn (addConnection c9T1 c9NewAngle true) c9NewAngle
          = some (kindList c9T1 c9NewAngle.kind).length)
    ∧ ((∀ c2 ∈ kindList c9T2 c9NewDihedral.kind,
        connStructEq c9T2 c2 c9NewDihedral = false ∧ c2.id ≠ c9NewDihedral.id)
      ∧ getIndexConn (addConnection c9T2 c9NewDihedral true) c9NewDihedral
          = some (kindList c9T2 c9NewDihedral.kind).length)
    ∧ ((∀ c2 ∈ kindList c9T3 c9NewImproper.kind,
        connStructEq c9T3 c2 c9NewImproper = false ∧ c2.id ≠ c9NewImproper.id)
      ∧ getIndexConn (addConnection c9T3 c9NewImproper true) c9NewImproper
          = some (kindList c9T3 c9NewImproper.kind).length)
    ∧ (kindList c9Top c9NewBond.kind).length = 5
    ∧ (kindList c9T1 c9NewAngle.kind).length = 5
    ∧ (kindList c9T2 c9NewDihedral.kind).length = 5
    ∧ (kindList c9T3 c9NewImproper.kind).length = 5 :=
  ⟨⟨by decide, get_index_new_connection c9Top c9NewBond true (by decide)⟩,
    ⟨by decide, get_index_new_connection c9T1 c9NewAngle true (by decide)⟩,
    ⟨by decide, get_index_new_connection c9T2 c9NewDihedral true (by decide)⟩,
    ⟨by decide, get_index_new_connection c9T3 c9NewImproper true (by decide)⟩,
    by decide, by decide, by decide, by decide⟩

/-- AtomType instance number `k` of the 100-site scenario: the default record
distinguished only by the name `atom_type<k>`. -/
def c1AtomType (k : Nat) : AtomType :=
  { defaultAtomType with name := "atom_type" ++ toString k }

/-- Site number `i` of the 100-site scenario, holding a shared reference to
AtomType instance `i % 10`. -/
def c1Site (i : Nat) : Site :=
  { id := i, name := "site" ++ toString i, atom_type := some (i % 10) }

/-- The 100-site topology: ten shared AtomType instances in the arena and one
hundred sites added with `update_types=False`, cycling through them. -/
def c1Topology : Topology :=
  (List.range 100).foldl (fun t i => addSite t (c1Site i) false)
    { emptyTopology with atomTypeHeap := (List.range 10).map c1AtomType }

/-- The 100-site topology after `update_topology()`. -/
def c1Updated : Topology := updateTopology c1Topology

/-- The updated topology after the in-place rename of the AtomType instance
shared by sites 0, 10, ..., 90 (reached through site 0's reference). -/
def c1Renamed : Topology := renameAtomTypeAt c1Updated 0 "atom_type_changed"

/-- C1: after adding 100 Sites whose AtomTypes cycle through 10 shared
AtomType instances distinguished by 10 distinct names, `update_topology()`
leaves exactly 10 entries in `atom_types`; sites 0 and 10 hold the identical
reference, and the in-place rename of that shared instance is visible through
site 10 and through every site holding that same reference. -/
theorem atom_type_registry_and_alias_visibility :
    c1Updated.atom_types.length = 10
    ∧ (c1Renamed.sites.get? 0).bind (fun s => s.atom_type)
        = (c1Renamed.sites.get? 10).bind (fun s => s.atom_type)
    ∧ (c1Renamed.sites.get? 0).bind (fun s => s.atom_type) = some 0
    ∧ siteAtomTypeName c1Renamed 10 = some "atom_type_changed"
    ∧ ((List.range 100).all (fun i =>
        match (c1Renamed.sites.get? i).bind (fun s => s.atom_type) with
        | some 0 => siteAtomTypeName c1Renamed i == some "atom_type_changed"
        | _ => true)) = true
    ∧ isTyped c1Renamed = true := by
  decide

/-- The rescan does not touch the arena. -/
theorem updateAtomTypes_heapGet (t : Topology) (r : ARef) :
    heapGet (updateAtomTypes t) r = heapGet t r := rfl

/-- An in-place rename does not touch the registry until a rescan. -/
theorem renameAtomTypeAt_atom_types (t : Topology) (r : ARef) (n : String) :
    (renameAtomTypeAt t r n).atom_types = t.atom_types := by
  unfold renameAtomTypeAt; split <;> rfl

/-- C3: in a Topology whose atom-type registry holds exactly two
value-distinct AtomTypes — A at index 0 (the current value of the object
referenced by `r0`) and B at index 1 (referenced by `r1`) — renaming the
object at `r0` in place so that its new value is fresh makes `get_index`
return 1 for the renamed object and 0 for the other: after the rescan the
surviving value B keeps its relative order at position 0 and the renamed
object's new value is appended as a first occurrence at position 1. -/
theorem get_index_after_rename (t : Topology) (r0 r1 : ARef) (A B A2 : AtomType) (n : String)
    (hreg : t.atom_types = [A, B])
    (hr0 : heapGet t r0 = some A)
    (hr1 : heapGet t r1 = some B)
    (hne : r0 ≠ r1)
    (hA2 : A2 = { A with name := n })
    (hAB : A ≠ B) (hA2A : A2 ≠ A) (hA2B : A2 ≠ B)
    (hocc : dedupFirstOcc (siteAtomTypeValues (renameAtomTypeAt t r0 n)) = [A2, B]) :
    getIndexAtomType (renameAtomTypeAt t r0 n) r0 = some 1
    ∧ getIndexAtomType (renameAtomTypeAt t r0 n) r1 = some 0 := by
  have hget0 : t.atomTypeHeap.get? r0 = some A := hr0
  obtain ⟨hlt, -⟩ := List.get?_eq_some.mp hget0
  have hT : renameAtomTypeAt t r0 n = { t with atomTypeHeap := t.atomTypeHeap.set r0 A2 } := by
    unfold renameAtomTypeAt
    rw [hget0, hA2]
  have hg0 : heapGet (renameAtomTypeAt t r0 n) r0 = some A2 := by
    rw [hT]
    show (t.atomTypeHeap.set r0 A2).get? r0 = some A2
    rw [List.get?_eq_getElem?]
    exact List.getElem?_set_self hlt
  have hg1 : heapGet (renameAtomTypeAt t r0 n) r1 = some B := by
    rw [hT]
    show (t.atomTypeHeap.set r0 A2).get? r1 = some B
    rw [List.get?_eq_getElem?, List.getElem?_set_ne hne, ← List.get?_eq_getElem?]
    exact hr1
  have hreg2 : (renameAtomTypeAt t r0 n).atom_types = [A, B] :=
    (renameAtomTypeAt_atom_types t r0 n).trans hreg
  have h1 : (A == A2) = false := beq_eq_false_iff_ne.mpr (Ne.symm hA2A)
  have h2 : (A == B) = false := beq_eq_false_iff_ne.mpr hAB
  have h3 : (B == A2) = false := beq_eq_false_iff_ne.mpr (Ne.symm hA2B)
  have h4 : (A2 == A) = false := beq_eq_false_iff_ne.mpr hA2A
  have h5 : (A2 == B) = false := beq_eq_false_iff_ne.mpr hA2B
  have h6 : (B == A) = false := beq_eq_false_iff_ne.mpr (Ne.symm hAB)
  have hupd : (updateAtomTypes (renameAtomTypeAt t r0 n)).atom_types = [B, A2] := by
    unfold updateAtomTypes
    rw [hocc, hreg2]
    simp [List.contains, List.elem, h1, h2, h3, h4, h5, h6]
  constructor
  · show getIndexAtomType (renameAtomTypeAt t r0 n) r0 = some 1
    simp only [getIndexAtomType]
    rw [updateAtomTypes_heapGet, hg0, hupd]
    simp [indexWhere?, registryKeyEq, h3]
  · show getIndexAtomType (renameAtomTypeAt t r0 n) r1 = some 0
    simp only [getIndexAtomType]
    rw [updateAtomTypes_heapGet, hg1, hupd]
    simp [indexWhere?, registryKeyEq]

/-- The oxygen-like AtomType of the typed water fixture. -/
def c3OType : AtomType := { defaultAtomType with name := "opls_111" }

/-- The hydrogen-like AtomType of the typed water fixture. -/
def c3HType : AtomType := { defaultAtomType with name := "opls_112" }

/-- A typed three-site water topology: the first site references the O type,
the other two share the H type; the registry is current. -/
def c3Water : Topology :=
  { emptyTopology with
    atomTypeHeap := [c3OType, c3HType]
    sites := [⟨0, "O", some 0⟩, ⟨1, "H1", some 1⟩, ⟨2, "H2", some 1⟩]
    atom_types := [c3OType, c3HType] }

/-- The renamed value of the O-type object. -/
def c3RenamedOType : AtomType := { c3OType with name := "atom_type_changed_name" }

/-- Witness for C3 at the typed water fixture of
`test_topology_get_index_atom_type_after_change`. -/
theorem get_index_after_rename_witness :
    (c3Water.atom_types = [c3OType, c3HType]
      ∧ heapGet c3Water 0 = some c3OType
      ∧ heapGet c3Water 1 = some c3HType
      ∧ dedupFirstOcc (siteAtomTypeValues (renameAtomTypeAt c3Water 0 "atom_type_changed_name"))
          = [c3RenamedOType, c3HType])
    ∧ getIndexAtomType (renameAtomTypeAt c3Water 0 "atom_type_changed_name") 0 = some 1
    ∧ getIndexAtomType (renameAtomTypeAt c3Water 0 "atom_type_changed_name") 1 = some 0 :=
  ⟨⟨by decide, by decide, by decide, by decide⟩,
    get_index_after_rename c3Water 0 1 c3OType c3HType c3RenamedOType "atom_type_changed_name"
      (by decide) (by decide) (by decide) (by decide) (by decide) (by decide) (by decide)
      (by decide) (by decide)⟩

/-- Length of an enumerated map. -/
theorem mapIdxFrom_length {α β : Type} (f : Nat → α → β) :
    ∀ (i : Nat) (l : List α), (mapIdxFrom f i l).length = l.length
  | _, [] => rfl
  | i, a :: l => by
    rw [mapIdxFrom]
    simp [mapIdxFrom_length f (i + 1) l]

/-- Recognizer for `add_site` operations. -/
def isAddSiteOp : TopOp → Bool
  | TopOp.addSiteOp _ _ => true
  | _ => false

/-- Recognizer for `add_connection` operations. -/
def isAddConnOp : TopOp → Bool
  | TopOp.addConnectionOp _ _ => true
  | _ => false

/-- Recognizer for `update_topology` operations. -/
def isUpdateOp : TopOp → Bool
  | TopOp.updateTopologyOp => true
  | _ => false

/-- Flag discipline of the adapter: `add_site` is called with the default
`update_types=True`, `add_connection` always with `update_types=False`. -/
def opFlagsOk : TopOp → Bool
  | TopOp.addSiteOp _ u => u
  | TopOp.addConnectionOp _ u => !u
  | _ => true

/-- An untyped two-atom, one-bond structure. -/
def c4Structure : PmdStructure :=
  { title := "ethane"
  , atoms := [{ name := "C", charge := 0, atom_type := none },
              { name := "H", charge := 0, atom_type := none }]
  , bond_types := [], angle_types := [], dihedral_types := [], rb_torsion_types := []
  , bonds := [{ atom1 := 0, atom2 := 1, btype := 0 }]
  , angles := [], dihedrals := [], rb_torsions := []
  , box := none }

/-- C4 counterexample: on a concrete two-atom one-bond structure the adapter
trace contains four `update_topology()` calls, not exactly one terminal
call. -/
theorem from_parmed_single_update_refuted :
    ¬ ((fromParmedTrace c4Structure).countP isUpdateOp = 1)
    ∧ (fromParmedTrace c4Structure).countP isUpdateOp = 4 := by
  decide

/-- C4 amended: the adapter performs one `add_site` per atom (with the
default `update_types=True`), one `add_connection` per bond, angle, dihedral
and RB torsion — every one with `update_types=False` — and calls
`update_topology()` four times (after the site loop, after the bond loop,
after the angle loop and terminally after the dihedral and RB-torsion
loops), the final operation being the terminal `update_topology()`. -/
theorem from_parmed_trace_shape (s : PmdStructure) :
    (fromParmedTrace s).countP isAddSiteOp = s.atoms.length
    ∧ (fromParmedTrace s).countP isAddConnOp
        = s.bonds.length + s.angles.length + s.dihedrals.length + s.rb_torsions.length
    ∧ (fromParmedTrace s).all opFlagsOk = true
    ∧ (fromParmedTrace s).countP isUpdateOp = 4
    ∧ (fromParmedTrace s).getLast? = some TopOp.updateTopologyOp := by
  have hsl : (sitesOf s).length = s.atoms.length := by
    simp [sitesOf, mapIdxFrom_length]
  have hbl : (bondConns s).length = s.bonds.length := by
    simp [bondConns, mapIdxFrom_length]
  have hal : (angleConns s).length = s.angles.length := by
    simp [angleConns, mapIdxFrom_length]
  have hdl : (dihedralConns s).length = s.dihedrals.length := by
    simp [dihedralConns, mapIdxFrom_length]
  have hrl : (rbTorsionConns s).length = s.rb_torsions.length := by
    simp [rbTorsionConns, mapIdxFrom_length]
  have e1 : (isAddSiteOp ∘ fun st : Site => TopOp.addSiteOp st true) = fun _ => true := rfl
  have e2 : (isAddSiteOp ∘ fun c : Connection => TopOp.addConnectionOp c false)
      = fun _ => false := rfl
  have e3 : (isAddConnOp ∘ fun st : Site => TopOp.addSiteOp st true) = fun _ => false := rfl
  have e4 : (isAddConnOp ∘ fun c : Connection => TopOp.addConnectionOp c false)
      = fun _ => true := rfl
  have e5 : (isUpdateOp ∘ fun st : Site => TopOp.addSiteOp st true) = fun _ => false := rfl
  have e6 : (isUpdateOp ∘ fun c : Connection => TopOp.addConnectionOp c false)
      = fun _ => false := rfl
  have e7 : (opFlagsOk ∘ fun st : Site => TopOp.addSiteOp st true) = fun _ => true := rfl
  have e8 : (opFlagsOk ∘ fun c : Connection => TopOp.addConnectionOp c false)
      = fun _ => true := rfl
  refine ⟨?_, ?_, ?_, ?_, ?_⟩
  · cases hbox : boxAll s <;>
      simp [fromParmedTrace, hbox, List.countP_append, List.countP_map, e1, e2,
        isAddSiteOp, hsl]
  · cases hbox : boxAll s <;>
      (simp [fromParmedTrace, hbox, List.countP_append, List.countP_map, e3, e4,
        isAddConnOp, hbl, hal, hdl, hrl]; omega)
  · cases hbox : boxAll s <;>
      simp [fromParmedTrace, hbox, List.all_append, List.all_map, e7, e8, opFlagsOk]
  · cases hbox : boxAll s <;>
      simp [fromParmedTrace, hbox, List.countP_append, List.countP_map, e5, e6, isUpdateOp]
  · cases hbox : boxAll s <;>
      simp [fromParmedTrace, hbox, ← List.append_assoc, List.getLast?_concat]

/-! Membership lemmas for the C10 invariant argument. -/

/-- Every element of an enumerated map is the image of a list element. -/
theorem mem_mapIdxFrom {α β : Type} (f : Nat → α → β) :
    ∀ (i : Nat) (l : List α) (x : β), x ∈ mapIdxFrom f i l → ∃ j a, a ∈ l ∧ x = f j a
  | _, [], _, h => absurd h (List.not_mem_nil _)
  | i, a :: l, x, h => by
    rw [mapIdxFrom] at h
    rcases List.mem_cons.mp h with h1 | h1
    · exact ⟨i, a, List.mem_cons_self a l, h1⟩
    · obtain ⟨j, b, hb, hx⟩ := mem_mapIdxFrom f (i + 1) l x h1
      exact ⟨j, b, List.mem_cons_of_mem a hb, hx⟩

/-- De-duplication never loses membership. -/
theorem mem_dedupFromAcc {α : Type} [BEq α] [LawfulBEq α] :
    ∀ (l acc : List α) (x : α), (x ∈ acc ∨ x ∈ l) → x ∈ dedupFromAcc acc l
  | [], acc, x, h => by
    rcases h with h | h
    · exact h
    · exact absurd h (List.not_mem_nil x)
  | a :: l, acc, x, h => by
    rw [dedupFromAcc]
    split
    · refine mem_dedupFromAcc l acc x ?_
      rcases h with h | h
      · exact Or.inl h
      · rcases List.mem_cons.mp h with h1 | h1
        · subst h1
          rename_i hcont
          exact Or.inl (List.elem_iff.mp hcont)
        · exact Or.inr h1
    · refine mem_dedupFromAcc l (acc ++ [a]) x ?_
      rcases h with h | h
      · exact Or.inl (List.mem_append.mpr (Or.inl h))
      · rcases List.mem_cons.mp h with h1 | h1
        · exact Or.inl (List.mem_append.mpr (Or.inr (h1 ▸ List.mem_singleton_self a)))
        · exact Or.inr h1

/-- Every connection kept by the coalescing run comes from the accumulator or
the input. -/
theorem mem_dedupConnsFrom (t : Topology) :
    ∀ (l acc : List Connection) (x : Connection),
      x ∈ dedupConnsFrom t acc l → x ∈ acc ∨ x ∈ l
  | [], _, _, h => Or.inl h
  | c :: l, acc, x, h => by
    rw [dedupConnsFrom] at h
    split at h
    · rcases mem_dedupConnsFrom t l acc x h with h1 | h1
      · exact Or.inl h1
      · exact Or.inr (List.mem_cons_of_mem c h1)
    · rcases mem_dedupConnsFrom t l (acc ++ [c]) x h with h1 | h1
      · rcases List.mem_append.mp h1 with h2 | h2
        · exact Or.inl h2
        · exact Or.inr (List.mem_singleton.mp h2 ▸ List.mem_cons_self c l)
      · exact Or.inr (List.mem_cons_of_mem c h1)

/-- A predicate that holds somewhere in the list gives a found index. -/
theorem indexWhere?_isSome_of_exists {α : Type} (p : α → Bool) :
    ∀ (l : List α), (∃ x ∈ l, p x = true) → (indexWhere? p l).isSome = true
  | [], h => absurd h (by simp)
  | a :: l, h => by
    rw [indexWhere?]
    by_cases hpa : p a = true
    · simp [hpa]
    · obtain ⟨x, hx, hpx⟩ := h
      rcases List.mem_cons.mp hx with h1 | h1
      · exact absurd (h1 ▸ hpx) hpa
      · have ih := indexWhere?_isSome_of_exists p l ⟨x, h1, hpx⟩
        simpa [hpa, Option.isSome_map] using ih

/-- The `add_site` operation appends the given site to the owned sequence in
every branch. -/
theorem addSite_sites (t : Topology) (s : Site) (u : Bool) :
    (addSite t s u).sites = t.sites ++ [s] := by
  simp only [addSite]
  split
  · split
    · split <;> rfl
    · rfl
  · rfl

/-- The `add_site` operation never touches the stored connections. -/
theorem addSite_allConnections (t : Topology) (s : Site) (u : Bool) :
    allConnections (addSite t s u) = allConnections t := by
  simp only [addSite]
  split
  · split
    · split <;> rfl
    · rfl
  · rfl

/-- Replacing one classification's sequence leaves the sites alone. -/
theorem setKindList_sites (t : Topology) (k : ConnKind) (l : List Connection) :
    (setKindList t k l).sites = t.sites := by
  cases k <;> rfl

/-- The sites after `add_connection` are those after its member
completion. -/
theorem addConnection_sites (t : Topology) (c : Connection) (u : Bool) :
    (addConnection t c u).sites = (c.connection_members.foldl ensureMember t).sites := by
  simp only [addConnection]
  split
  · rfl
  · split <;> simp [setKindList_sites]

/-- Member completion only adds the connection's own members. -/
theorem mem_sites_ensureMember (t : Topology) (s x : Site)
    (h : x ∈ (ensureMember t s).sites) : x ∈ t.sites ∨ x = s := by
  unfold ensureMember at h
  split at h
  · exact Or.inl h
  · rcases List.mem_append.mp h with h1 | h1
    · exact Or.inl h1
    · exact Or.inr (List.mem_singleton.mp h1)

/-- Folded member completion only adds members from the folded list. -/
theorem mem_sites_foldl_ensureMember :
    ∀ (l : List Site) (t : Topology) (x : Site),
      x ∈ (l.foldl ensureMember t).sites → x ∈ t.sites ∨ x ∈ l
  | [], _, _, h => Or.inl h
  | s :: l, t, x, h => by
    rw [List.foldl_cons] at h
    rcases mem_sites_foldl_ensureMember l (ensureMember t s) x h with h1 | h1
    · rcases mem_sites_ensureMember t s x h1 with h2 | h2
      · exact Or.inl h2
      · exact Or.inr (h2 ▸ List.mem_cons_self s l)
    · exact Or.inr (List.mem_cons_of_mem s h1)

/-- Every site present after `add_connection` was present before or is one of
the connection's members. -/
theorem mem_sites_addConnection (t : Topology) (c : Connection) (u : Bool) (x : Site)
    (h : x ∈ (addConnection t c u).sites) : x ∈ t.sites ∨ x ∈ c.connection_members := by
  rw [addConnection_sites] at h
  exact mem_sites_foldl_ensureMember c.connection_members t x h

/-- Folded member completion never touches the stored connections. -/
theorem foldl_ensureMember_allConnections (l : List Site) (t : Topology) :
    allConnections (l.foldl ensureMember t) = allConnections t := by
  have hb := foldl_ensureMember_kindList l t ConnKind.bond
  have ha := foldl_ensureMember_kindList l t ConnKind.angle
  have hd := foldl_ensureMember_kindList l t ConnKind.dihedral
  have hi := foldl_ensureMember_kindList l t ConnKind.improper
  simp only [kindList] at hb ha hd hi
  simp [allConnections, hb, ha, hd, hi]

/-- Every connection stored after `add_connection` was stored before or is
the added connection itself. -/
theorem mem_allConnections_addConnection (t : Topology) (c : Connection) (u : Bool)
    (x : Connection) (h : x ∈ allConnections (addConnection t c u)) :
    x ∈ allConnections t ∨ x = c := by
  have hfold := foldl_ensureMember_allConnections c.connection_members t
  simp only [addConnection] at h
  split at h
  · rw [hfold] at h
    exact Or.inl h
  · have hmem : x ∈ allConnections
        (setKindList (c.connection_members.foldl ensureMember t) c.kind
          (kindList (c.connection_members.foldl ensureMember t) c.kind ++ [c])) := by
      split at h
      · exact h
      · exact h
    rcases (by
      revert hmem
      cases c.kind <;>
        (simp [allConnections, setKindList, kindList, List.mem_append, List.mem_singleton];
         tauto) :
      x ∈ allConnections (c.connection_members.foldl ensureMember t) ∨ x = c) with h1 | h1
    · rw [hfold] at h1
      exact Or.inl h1
    · exact Or.inr h1

/-- The full update keeps the site sequence. -/
theorem updateTopology_sites (t : Topology) : (updateTopology t).sites = t.sites := rfl

/-- Every connection stored after the full update was stored before
(coalescing only drops duplicates). -/
theorem mem_allConnections_updateTopology (t : Topology) (x : Connection)
    (h : x ∈ allConnections (updateTopology t)) : x ∈ allConnections t := by
  have h2 : x ∈ dedupConnections t t.bonds ∨ x ∈ dedupConnections t t.angles
      ∨ x ∈ dedupConnections t t.dihedrals ∨ x ∈ dedupConnections t t.impropers := by
    simpa [updateTopology, updateAtomTypes, allConnections, List.mem_append] using h
  have hof : ∀ (l : List Connection), x ∈ dedupConnections t l → x ∈ l := by
    intro l hx
    rcases mem_dedupConnsFrom t l [] x hx with h3 | h3
    · exact absurd h3 (List.not_mem_nil x)
    · exact h3
  rcases h2 with h2 | h2 | h2 | h2 <;>
    simp [allConnections, List.mem_append, hof _ h2]

/-- Site predicate holding over every stored site. -/
def SitesAll (P : Site → Bool) (t : Topology) : Prop :=
  ∀ st ∈ t.sites, P st = true

/-- Connection predicate holding over every stored connection. -/
def ConnsAll (Q : Connection → Bool) (t : Topology) : Prop :=
  ∀ c ∈ allConnections t, Q c = true

/-- Payload discipline of one adapter operation: added sites satisfy `P`,
added connections satisfy `Q` and their members satisfy `P`. -/
def opPayloadOk (P : Site → Bool) (Q : Connection → Bool) : TopOp → Prop
  | TopOp.addSiteOp st _ => P st = true
  | TopOp.addConnectionOp c _ => Q c = true ∧ ∀ m ∈ c.connection_members, P m = true
  | _ => True

/-- One adapter operation preserves both stored-payload invariants. -/
theorem execOp_preserves (P : Site → Bool) (Q : Connection → Bool) (t : Topology) (op : TopOp)
    (hS : SitesAll P t) (hC : ConnsAll Q t) (hop : opPayloadOk P Q op) :
    SitesAll P (execOp t op) ∧ ConnsAll Q (execOp t op) := by
  cases op with
  | addSiteOp st u =>
    constructor
    · intro x hx
      rw [execOp, addSite_sites] at hx
      rcases List.mem_append.mp hx with h | h
      · exact hS x h
      · exact (List.mem_singleton.mp h) ▸ hop
    · intro x hx
      rw [execOp, addSite_allConnections] at hx
      exact hC x hx
  | addConnectionOp c u =>
    constructor
    · intro x hx
      rcases mem_sites_addConnection t c u x hx with h | h
      · exact hS x h
      · exact hop.2 x h
    · intro x hx
      rcases mem_allConnections_addConnection t c u x hx with h | h
      · exact hC x h
      · exact h ▸ hop.1
  | updateTopologyOp =>
    constructor
    · intro x hx
      rw [execOp, updateTopology_sites] at hx
      exact hS x hx
    · intro x hx
      exact hC x (mem_allConnections_updateTopology t x hx)
  | setBoxOp => exact ⟨hS, hC⟩

/-- A whole operation trace with disciplined payloads preserves both
invariants. -/
theorem foldl_execOp_preserves (P : Site → Bool) (Q : Connection → Bool) :
    ∀ (ops : List TopOp) (t : Topology),
      SitesAll P t → ConnsAll Q t → (∀ op ∈ ops, opPayloadOk P Q op) →
      SitesAll P (ops.foldl execOp t) ∧ ConnsAll Q (ops.foldl execOp t)
  | [], _, hS, hC, _ => ⟨hS, hC⟩
  | op :: ops, t, hS, hC, hops => by
    rw [List.foldl_cons]
    have h1 := execOp_preserves P Q t op hS hC (hops op (List.mem_cons_self op ops))
    exact foldl_execOp_preserves P Q ops (execOp t op) h1.1 h1.2
      (fun o ho => hops o (List.mem_cons_of_mem op ho))

/-! Payload facts about the adapter trace, per parametrization branch. -/

/-- In the untyped branch every built site carries `atom_type=None`. -/
theorem sitesOf_untyped (s : PmdStructure) (hp : (isParametrized s).getD false = false) :
    ∀ st ∈ sitesOf s, st.atom_type.isNone = true := by
  intro st hst
  simp only [sitesOf, hp, Bool.false_eq_true, if_false] at hst
  obtain ⟨j, a, ha, rfl⟩ := mem_mapIdxFrom _ _ _ _ hst
  rfl

/-- In the typed branch every built site carries a reference to the converted
type of its atom. -/
theorem sitesOf_typed (s : PmdStructure) (hp : (isParametrized s).getD false = true)
    (hall : ∀ a ∈ s.atoms, a.atom_type.isSome = true) :
    ∀ st ∈ sitesOf s, st.atom_type.isSome = true := by
  intro st hst
  simp only [sitesOf, hp, if_true] at hst
  obtain ⟨j, a, ha, rfl⟩ := mem_mapIdxFrom _ _ _ _ hst
  obtain ⟨pt, hpt⟩ := Option.isSome_iff_exists.mp (hall a ha)
  have hmem : pt ∈ uniquePmdAtomTypes s := by
    refine mem_dedupFromAcc _ [] pt (Or.inr ?_)
    exact List.mem_filterMap.mpr ⟨a, ha, hpt⟩
  have hidx := indexWhere?_isSome_of_exists (fun q => q == pt) (uniquePmdAtomTypes s)
    ⟨pt, hmem, beq_self_eq_true pt⟩
  simp [hpt, hidx]

/-- Every member of a built bond is a built site. -/
theorem bondConns_members (s : PmdStructure) (c : Connection) (hc : c ∈ bondConns s)
    (m : Site) (hm : m ∈ c.connection_members) : m ∈ sitesOf s := by
  simp only [bondConns] at hc
  obtain ⟨j, b, hb, rfl⟩ := mem_mapIdxFrom _ _ _ _ hc
  simp only [List.mem_filterMap] at hm
  obtain ⟨k, hk, hget⟩ := hm
  exact List.get?_mem hget

/-- Every member of a built angle is a built site. -/
theorem angleConns_members (s : PmdStructure) (c : Connection) (hc : c ∈ angleConns s)
    (m : Site) (hm : m ∈ c.connection_members) : m ∈ sitesOf s := by
  simp only [angleConns] at hc
  obtain ⟨j, b, hb, rfl⟩ := mem_mapIdxFrom _ _ _ _ hc
  simp only [List.mem_filterMap] at hm
  obtain ⟨k, hk, hget⟩ := hm
  exact List.get?_mem hget

/-- Every member of a built periodic dihedral is a built site. -/
theorem dihedralConns_members (s : PmdStructure) (c : Connection) (hc : c ∈ dihedralConns s)
    (m : Site) (hm : m ∈ c.connection_members) : m ∈ sitesOf s := by
  simp only [dihedralConns] at hc
  obtain ⟨j, b, hb, rfl⟩ := mem_mapIdxFrom _ _ _ _ hc
  simp only [List.mem_filterMap] at hm
  obtain ⟨k, hk, hget⟩ := hm
  exact List.get?_mem hget

/-- Every member of a built RB-torsion dihedral is a built site. -/
theorem rbTorsionConns_members (s : PmdStructure) (c : Connection) (hc : c ∈ rbTorsionConns s)
    (m : Site) (hm : m ∈ c.connection_members) : m ∈ sitesOf s := by
  simp only [rbTorsionConns] at hc
  obtain ⟨j, b, hb, rfl⟩ := mem_mapIdxFrom _ _ _ _ hc
  simp only [List.mem_filterMap] at hm
  obtain ⟨k, hk, hget⟩ := hm
  exact List.get?_mem hget

/-- Connection-type payload of every built connection: `None` in the untyped
branch, a type reference in the typed branch, uniformly over the four
loops. -/
theorem conns_type_payload (s : PmdStructure) (c : Connection)
    (hc : c ∈ bondConns s ∨ c ∈ angleConns s ∨ c ∈ dihedralConns s ∨ c ∈ rbTorsionConns s) :
    ((isParametrized s).getD false = false → c.connection_type.isNone = true)
    ∧ ((isParametrized s).getD false = true → c.connection_type.isSome = true) := by
  rcases hc with hc | hc | hc | hc <;>
    [simp only [bondConns] at hc; simp only [angleConns] at hc;
     simp only [dihedralConns] at hc; simp only [rbTorsionConns] at hc] <;>
    (obtain ⟨j, b, hb, rfl⟩ := mem_mapIdxFrom _ _ _ _ hc;
     constructor <;> (intro hp; simp [hp]))

/-- Classification of the operations appearing in the adapter trace. -/
theorem fromParmedTrace_ops (s : PmdStructure) (op : TopOp) (hop : op ∈ fromParmedTrace s) :
    (∃ st u, op = TopOp.addSiteOp st u ∧ st ∈ sitesOf s)
    ∨ (∃ c u, op = TopOp.addConnectionOp c u
        ∧ (c ∈ bondConns s ∨ c ∈ angleConns s ∨ c ∈ dihedralConns s ∨ c ∈ rbTorsionConns s))
    ∨ op = TopOp.updateTopologyOp ∨ op = TopOp.setBoxOp := by
  by_cases hbox : boxAll s = true <;>
    simp only [fromParmedTrace, hbox, Bool.false_eq_true, if_true, if_false,
      List.mem_append, List.mem_map, List.mem_singleton, List.not_mem_nil, or_false] at hop <;>
    aesop

/-- In the untyped branch every trace operation carries None-typed
payloads. -/
theorem fromParmedTrace_payload_untyped (s : PmdStructure)
    (hp : (isParametrized s).getD false = false) :
    ∀ op ∈ fromParmedTrace s,
      opPayloadOk (fun st => st.atom_type.isNone) (fun c => c.connection_type.isNone) op := by
  intro op hop
  rcases fromParmedTrace_ops s op hop with ⟨st, u, rfl, hst⟩ | ⟨c, u, rfl, hc⟩ | rfl | rfl
  · exact sitesOf_untyped s hp st hst
  · refine ⟨(conns_type_payload s c hc).1 hp, ?_⟩
    intro m hm
    have hmem : m ∈ sitesOf s := by
      rcases hc with h | h | h | h
      · exact bondConns_members s c h m hm
      · exact angleConns_members s c h m hm
      · exact dihedralConns_members s c h m hm
      · exact rbTorsionConns_members s c h m hm
    exact sitesOf_untyped s hp m hmem
  · trivial
  · trivial

/-- In the typed branch (every atom typed) every trace operation carries
typed payloads. -/
theorem fromParmedTrace_payload_typed (s : PmdStructure)
    (hp : (isParametrized s).getD false = true)
    (hall : ∀ a ∈ s.atoms, a.atom_type.isSome = true) :
    ∀ op ∈ fromParmedTrace s,
      opPayloadOk (fun st => st.atom_type.isSome) (fun c => c.connection_type.isSome) op := by
  intro op hop
  rcases fromParmedTrace_ops s op hop with ⟨st, u, rfl, hst⟩ | ⟨c, u, rfl, hc⟩ | rfl | rfl
  · exact sitesOf_typed s hp hall st hst
  · refine ⟨(conns_type_payload s c hc).2 hp, ?_⟩
    intro m hm
    have hmem : m ∈ sitesOf s := by
      rcases hc with h | h | h | h
      · exact bondConns_members s c h m hm
      · exact angleConns_members s c h m hm
      · exact dihedralConns_members s c h m hm
      · exact rbTorsionConns_members s c h m hm
    exact sitesOf_typed s hp hall m hmem
  · trivial
  · trivial

/-- C10: `from_parmed` decides parametrization by inspecting only the first
atom.  When the conversion returns a topology: if the first atom is untyped
then every resulting Site has `atom_type` None and every resulting Connection
has connection type None, regardless of the typing of the remaining atoms;
if the first atom is typed (so every atom is, or the conversion would have
raised) then every resulting Site carries an AtomType and every resulting
Connection carries a connection type. -/
theorem from_parmed_typing_decided_by_first_atom (s : PmdStructure) (t : Topology)
    (hok : fromParmed s = Except.ok t) :
    ((isParametrized s = some false) →
       (∀ st ∈ t.sites, st.atom_type = none)
       ∧ (∀ c ∈ allConnections t, c.connection_type = none))
    ∧ ((isParametrized s = some true) →
       (∀ st ∈ t.sites, st.atom_type.isSome = true)
       ∧ (∀ c ∈ allConnections t, c.connection_type.isSome = true)) := by
  unfold fromParmed at hok
  cases hhead : s.atoms.head? with
  | none =>
    rw [hhead] at hok
    exact absurd hok (by simp)
  | some a0 =>
    rw [hhead] at hok
    dsimp only at hok
    by_cases hguard : (a0.atom_type.isSome && s.atoms.any fun a => a.atom_type.isNone) = true
    · rw [if_pos hguard] at hok
      exact absurd hok (by simp)
    · rw [if_neg hguard] at hok
      have ht : t = (fromParmedTrace s).foldl execOp (initialConvertTopology s) :=
        (Except.ok.inj hok).symm
      have hparam : isParametrized s = some a0.atom_type.isSome := by
        simp [isParametrized, hhead]
      have hinitS : ∀ (P : Site → Bool), SitesAll P (initialConvertTopology s) := by
        intro P x hx
        simp [initialConvertTopology, emptyTopology] at hx
      have hinitC : ∀ (Q : Connection → Bool), ConnsAll Q (initialConvertTopology s) := by
        intro Q x hx
        simp [initialConvertTopology, emptyTopology, allConnections] at hx
      constructor
      · intro hfalse
        have hb : a0.atom_type.isSome = false := by
          rw [hparam] at hfalse
          simpa using hfalse.symm
        have hp : (isParametrized s).getD false = false := by
          simp [hparam, hb]
        have hinv := foldl_execOp_preserves (fun st => st.atom_type.isNone)
          (fun c => c.connection_type.isNone) (fromParmedTrace s) (initialConvertTopology s)
          (hinitS _) (hinitC _) (fromParmedTrace_payload_untyped s hp)
        rw [← ht] at hinv
        exact ⟨fun st hst => Option.isNone_iff_eq_none.mp (hinv.1 st hst),
          fun c hc => Option.isNone_iff_eq_none.mp (hinv.2 c hc)⟩
      · intro htrue
        have hb : a0.atom_type.isSome = true := by
          rw [hparam] at htrue
          simpa using htrue.symm
        have hall : ∀ a ∈ s.atoms, a.atom_type.isSome = true := by
          intro a ha
          by_contra hcontra
          refine hguard ?_
          rw [hb, Bool.true_and, List.any_eq_true]
          exact ⟨a, ha, by simp [Option.isNone_iff_eq_none,
            Option.not_isSome_iff_eq_none.mp hcontra]⟩
        have hp : (isParametrized s).getD false = true := by
          simp [hparam, hb]
        have hinv := foldl_execOp_preserves (fun st => st.atom_type.isSome)
          (fun c => c.connection_type.isSome) (fromParmedTrace s) (initialConvertTopology s)
          (hinitS _) (hinitC _) (fromParmedTrace_payload_typed s hp hall)
        rw [← ht] at hinv
        exact ⟨hinv.1, hinv.2⟩

/-- A structure whose first atom is untyped while the second IS typed: the
adapter's decision must follow the first atom only. -/
def c10Structure : PmdStructure :=
  { title := "mixed"
  , atoms := [{ name := "C", charge := 0, atom_type := none },
              { name := "O", charge := -1,
                atom_type := some { name := "opls_1", charge := -1, sigma := 3, epsilon := 1 } }]
  , bond_types := [{ k := 10, req := 1 }]
  , angle_types := [], dihedral_types := [], rb_torsion_types := []
  , bonds := [{ atom1 := 0, atom2 := 1, btype := 0 }]
  , angles := [], dihedrals := [], rb_torsions := []
  , box := none }

/-- The topology the adapter produces on that mixed structure. -/
def c10Result : Topology :=
  (fromParmedTrace c10Structure).foldl execOp (initialConvertTopology c10Structure)

/-- Witness for C10 at the mixed structure: the conversion succeeds, the
first atom is untyped, and the branch conclusions follow from the main
theorem. -/
theorem from_parmed_typing_decided_witness :
    fromParmed c10Structure = Except.ok c10Result
    ∧ isParametrized c10Structure = some false
    ∧ (((isParametrized c10Structure = some false) →
          (∀ st ∈ c10Result.sites, st.atom_type = none)
          ∧ (∀ c ∈ allConnections c10Result, c.connection_type = none))
        ∧ ((isParametrized c10Structure = some true) →
          (∀ st ∈ c10Result.sites, st.atom_type.isSome = true)
          ∧ (∀ c ∈ allConnections c10Result, c.connection_type.isSome = true))) :=
  ⟨rfl, rfl, from_parmed_typing_decided_by_first_atom c10Structure c10Result rfl⟩

end Gmso
